import Mathlib

/-!
Verification of the hass-proxy authorization decision engine
(custom_components/hass_proxy/proxy.py) against its specification.

The embedding models:
- the TLS policy resolver (HAProxyView._proxy_ssl_cipher_to_ha_ssl_cipher
  together with the client_context / client_context_no_verify helpers);
- the dynamic rule registry and its mutations (create_proxied_url,
  delete_proxied_url);
- the authorization decision engine (HAProxyView._get_proxied_url),
  with the external urlmatch.urlmatch function and urllib.parse.unquote
  abstracted as function parameters and time.time() as an explicit `now`.
-/

/-- Cipher-profile identifiers accepted by the proxy configuration
(CONF_SSL_CIPHERS_INSECURE / MODERN / INTERMEDIATE / DEFAULT). -/
inductive HASSProxySSLCiphers where
  | insecure
  | modern
  | intermediate
  | default
deriving DecidableEq

/-- Cipher policies of the runtime TLS helper (homeassistant.util.ssl.SSLCipherList). -/
inductive SSLCipherList where
  | python_default
  | insecure
  | modern
  | intermediate
deriving DecidableEq

/-- Opaque trust configuration produced by the runtime TLS helpers. -/
structure SSLContext where
  verify : Bool
  ciphers : SSLCipherList
deriving DecidableEq

/-- homeassistant.util.ssl.client_context: a verifying context for a cipher policy. -/
def client_context (c : SSLCipherList) : SSLContext :=
  ⟨true, c⟩

/-- homeassistant.util.ssl.client_context_no_verify: a non-verifying context. -/
def client_context_no_verify (c : SSLCipherList) : SSLContext :=
  ⟨false, c⟩

/-- HAProxyView._proxy_ssl_cipher_to_ha_ssl_cipher: map the default profile to
SSLCipherList.PYTHON_DEFAULT and pass every other profile through verbatim. -/
def proxy_ssl_cipher_to_ha_ssl_cipher (c : HASSProxySSLCiphers) : SSLCipherList :=
  match c with
  | .default => .python_default
  | .insecure => .insecure
  | .modern => .modern
  | .intermediate => .intermediate

/-- HAProxyView._get_ssl_context. -/
def get_ssl_context (c : HASSProxySSLCiphers) : SSLContext :=
  client_context (proxy_ssl_cipher_to_ha_ssl_cipher c)

/-- HAProxyView._get_ssl_context_no_verify. -/
def get_ssl_context_no_verify (c : HASSProxySSLCiphers) : SSLContext :=
  client_context_no_verify (proxy_ssl_cipher_to_ha_ssl_cipher c)

/-- The conditional `self._get_ssl_context(ciphers) if verification else
self._get_ssl_context_no_verify(ciphers)` used on both authorization paths. -/
def ssl_context_for (verify : Bool) (c : HASSProxySSLCiphers) : SSLContext :=
  if verify then get_ssl_context c else get_ssl_context_no_verify c

/-- custom_components.hass_proxy.data.DynamicProxiedURL. `expiration = 0` means
"never expires"; `open_limit = 0` means "unlimited uses". -/
structure DynamicProxiedURL where
  url_pattern : String
  ssl_verification : Bool
  ssl_ciphers : HASSProxySSLCiphers
  open_limit : Nat
  expiration : Nat
deriving DecidableEq

/-- The dynamic registry: a Python dict keyed by url_id, modelled as an
association list in insertion order (Python dicts iterate in insertion order,
and assignment to an existing key keeps its position). -/
abbrev Registry := List (String × DynamicProxiedURL)

/-- The config-entry options consulted by the static fallback: the ordered
static pattern list plus the shared static TLS settings. -/
structure ProxyOptions where
  url_patterns : List String
  ssl_ciphers : HASSProxySSLCiphers
  ssl_verification : Bool
deriving DecidableEq

/-- The request-time denial exceptions HASSProxyLibExpiredError and
HASSProxyLibNotFoundRequestError. -/
inductive HASSProxyLibError where
  | expired
  | notFound
deriving DecidableEq

/-- custom_components.hass_proxy.proxy_lib.ProxiedURL: an authorized target. -/
structure ProxiedURL where
  url : String
  ssl_context : SSLContext
deriving DecidableEq

/-- The expiry test `proxied_url.expiration and proxied_url.expiration < time.time()`. -/
def isExpired (now : Nat) (p : DynamicProxiedURL) : Bool :=
  p.expiration != 0 && decide (p.expiration < now)

/-- The dynamic-rule loop of HAProxyView._get_proxied_url: returns the
authorizing TLS context (if any), the registry after the scan, and the
`has_expired_match` flag. -/
def scan_dynamic (m : String → String → Bool) (now : Nat) (url : String) :
    Registry → Option SSLContext × Registry × Bool
  | [] => (none, [], false)
  | (uid, p) :: rest =>
    if m p.url_pattern url then
      if isExpired now p then
        let r := scan_dynamic m now url rest
        (r.1, (uid, p) :: r.2.1, true)
      else
        (some (ssl_context_for p.ssl_verification p.ssl_ciphers),
         (if p.open_limit != 0 then
            (if p.open_limit - 1 = 0 then rest
             else (uid, { p with open_limit := p.open_limit - 1 }) :: rest)
          else (uid, p) :: rest),
         false)
    else
      let r := scan_dynamic m now url rest
      (r.1, (uid, p) :: r.2.1, r.2.2)

/-- The static-rule loop of HAProxyView._get_proxied_url over
`options.get("url_patterns", [])`. -/
def scan_static (m : String → String → Bool) (url : String) (opts : ProxyOptions) :
    List String → Option SSLContext
  | [] => none
  | pat :: rest =>
    if m pat url then some (ssl_context_for opts.ssl_verification opts.ssl_ciphers)
    else scan_static m url opts rest

/-- HAProxyView._get_proxied_url. `m` abstracts urlmatch.urlmatch, `unquote`
abstracts urllib.parse.unquote, `now` abstracts time.time(), `query` is the
value of the "url" query parameter (none when absent). Returns the decision
together with the registry after the request. -/
def get_proxied_url (m : String → String → Bool) (unquote : String → String)
    (now : Nat) (opts : ProxyOptions) (query : Option String) (reg : Registry) :
    Except HASSProxyLibError ProxiedURL × Registry :=
  match query with
  | none => (.error .notFound, reg)
  | some raw =>
    match (scan_dynamic m now (unquote raw) reg).1 with
    | some ctx => (.ok ⟨unquote raw, ctx⟩, (scan_dynamic m now (unquote raw) reg).2.1)
    | none =>
      match scan_static m (unquote raw) opts opts.url_patterns with
      | some ctx => (.ok ⟨unquote raw, ctx⟩, (scan_dynamic m now (unquote raw) reg).2.1)
      | none =>
        if (scan_dynamic m now (unquote raw) reg).2.2 then
          (.error .expired, (scan_dynamic m now (unquote raw) reg).2.1)
        else
          (.error .notFound, (scan_dynamic m now (unquote raw) reg).2.1)

/-- Python dict assignment `d[k] = v`: replace the value of an existing key in
place (keeping its position), otherwise append the new binding at the end. -/
def insertEntry (k : String) (v : DynamicProxiedURL) : Registry → Registry
  | [] => [(k, v)]
  | (k2, v2) :: rest =>
    if k2 == k then (k, v) :: rest else (k2, v2) :: insertEntry k v rest

/-- The create_proxied_url service handler. `genId` abstracts str(uuid.uuid4());
`url_id = none` (or the empty string, which is falsy in Python) selects the
generated id. `expiration = time.time() + ttl if ttl else 0`. -/
def create_proxied_url (genId : String) (now : Nat) (url_id : Option String)
    (url_pattern : String) (ssl_verification : Bool)
    (ssl_ciphers : HASSProxySSLCiphers) (open_limit : Nat) (time_to_live : Nat)
    (reg : Registry) : Registry :=
  let uid :=
    match url_id with
    | some s => if s == "" then genId else s
    | none => genId
  insertEntry uid
    { url_pattern := url_pattern
      ssl_verification := ssl_verification
      ssl_ciphers := ssl_ciphers
      open_limit := open_limit
      expiration := if time_to_live != 0 then now + time_to_live else 0 } reg

/-- The ServiceValidationError raised by delete_proxied_url for an unknown id. -/
inductive ServiceValidationError where
  | url_id_not_found (url_id : String)
deriving DecidableEq

/-- The delete_proxied_url service handler: raise before mutating when the id
is absent, otherwise delete exactly that key. -/
def delete_proxied_url (url_id : String) (reg : Registry) :
    Except ServiceValidationError Unit × Registry :=
  if (reg.lookup url_id).isNone then
    (.error (.url_id_not_found url_id), reg)
  else
    (.ok (), reg.filter fun e => e.1 != url_id)

/-- A dynamic entry that matches the URL and is not expired: exactly the
entries that authorize during the dynamic scan. -/
def dynMatchValid (m : String → String → Bool) (now : Nat) (url : String)
    (e : String × DynamicProxiedURL) : Bool :=
  m e.2.url_pattern url && !(isExpired now e.2)

/-- A dynamic entry that matches the URL but is expired: exactly the entries
that set `has_expired_match`. -/
def dynMatchExpired (m : String → String → Bool) (now : Nat) (url : String)
    (e : String × DynamicProxiedURL) : Bool :=
  m e.2.url_pattern url && isExpired now e.2

/-- No persisted entry has open_limit = 0. -/
def noZeroOpenLimit (reg : Registry) : Bool :=
  reg.all fun e => e.2.open_limit != 0

/-- Number of registry entries stored under a given key. -/
def countKey (k : String) (reg : Registry) : Nat :=
  (reg.filter fun e => e.1 == k).length

/-- Registry states reachable from the empty registry by any sequence of
create, delete and authorize operations. -/
inductive Reachable : Registry → Prop where
  | init : Reachable []
  | create {genId : String} {now : Nat} {url_id : Option String}
      {url_pattern : String} {ssl_verification : Bool}
      {ssl_ciphers : HASSProxySSLCiphers} {open_limit time_to_live : Nat}
      {reg : Registry} :
      Reachable reg →
      Reachable (create_proxied_url genId now url_id url_pattern
        ssl_verification ssl_ciphers open_limit time_to_live reg)
  | delete {url_id : String} {reg : Registry} :
      Reachable reg → Reachable (delete_proxied_url url_id reg).2
  | authorize {m : String → String → Bool} {unquote : String → String}
      {now : Nat} {opts : ProxyOptions} {query : Option String} {reg : Registry} :
      Reachable reg → Reachable (get_proxied_url m unquote now opts query reg).2

/-- Registry states reachable when every create uses a positive open_limit
(that is, no unlimited-use rule is ever created). -/
inductive ReachablePos : Registry → Prop where
  | init : ReachablePos []
  | create {genId : String} {now : Nat} {url_id : Option String}
      {url_pattern : String} {ssl_verification : Bool}
      {ssl_ciphers : HASSProxySSLCiphers} {open_limit time_to_live : Nat}
      {reg : Registry} :
      open_limit ≠ 0 →
      ReachablePos reg →
      ReachablePos (create_proxied_url genId now url_id url_pattern
        ssl_verification ssl_ciphers open_limit time_to_live reg)
  | delete {url_id : String} {reg : Registry} :
      ReachablePos reg → ReachablePos (delete_proxied_url url_id reg).2
  | authorize {m : String → String → Bool} {unquote : String → String}
      {now : Nat} {opts : ProxyOptions} {query : Option String} {reg : Registry} :
      ReachablePos reg → ReachablePos (get_proxied_url m unquote now opts query reg).2

/-- The decision component of the dynamic scan is determined by the first
matching non-expired entry in registry order. -/
theorem scan_dynamic_fst (m : String → String → Bool) (now : Nat) (url : String)
    (reg : Registry) :
    (scan_dynamic m now url reg).1
      = (reg.find? (dynMatchValid m now url)).map
          (fun e => ssl_context_for e.2.ssl_verification e.2.ssl_ciphers) := by
  induction reg with
  | nil => rfl
  | cons e rest ih =>
    obtain ⟨uid, p⟩ := e
    cases hm : m p.url_pattern url with
    | false => simp [scan_dynamic, hm, dynMatchValid, List.find?_cons, ih]
    | true =>
      cases hx : isExpired now p with
      | false => simp [scan_dynamic, hm, hx, dynMatchValid, List.find?_cons]
      | true => simp [scan_dynamic, hm, hx, dynMatchValid, List.find?_cons, ih]

/-- When no dynamic entry authorizes, the scan leaves the registry unchanged. -/
theorem scan_dynamic_none_reg (m : String → String → Bool) (now : Nat)
    (url : String) (reg : Registry)
    (h : (scan_dynamic m now url reg).1 = none) :
    (scan_dynamic m now url reg).2.1 = reg := by
  induction reg with
  | nil => rfl
  | cons e rest ih =>
    obtain ⟨uid, p⟩ := e
    cases hm : m p.url_pattern url with
    | false =>
      simp [scan_dynamic, hm] at h ⊢
      exact ih h
    | true =>
      cases hx : isExpired now p with
      | false => simp [scan_dynamic, hm, hx] at h
      | true =>
        simp [scan_dynamic, hm, hx] at h ⊢
        exact ih h

/-- When no dynamic entry authorizes, the `has_expired_match` flag holds
exactly when some entry matched but was expired. -/
theorem scan_dynamic_none_flag (m : String → String → Bool) (now : Nat)
    (url : String) (reg : Registry)
    (h : (scan_dynamic m now url reg).1 = none) :
    (scan_dynamic m now url reg).2.2 = reg.any (dynMatchExpired m now url) := by
  induction reg with
  | nil => rfl
  | cons e rest ih =>
    obtain ⟨uid, p⟩ := e
    cases hm : m p.url_pattern url with
    | false =>
      simp [scan_dynamic, hm] at h ⊢
      simp [dynMatchExpired, hm]
      exact ih h
    | true =>
      cases hx : isExpired now p with
      | false => simp [scan_dynamic, hm, hx] at h
      | true => simp [scan_dynamic, hm, hx, dynMatchExpired]

/-- The static loop authorizes exactly when some static pattern matches, with
the shared static TLS settings. -/
theorem scan_static_eq (m : String → String → Bool) (url : String)
    (opts : ProxyOptions) (pats : List String) :
    scan_static m url opts pats
      = (pats.find? (fun q => m q url)).map
          (fun _ => ssl_context_for opts.ssl_verification opts.ssl_ciphers) := by
  induction pats with
  | nil => rfl
  | cons pat rest ih =>
    cases hm : m pat url with
    | false => simp [scan_static, hm, List.find?_cons, ih]
    | true => simp [scan_static, hm, List.find?_cons]

/-- Characterization of the decision returned by _get_proxied_url when the
"url" query parameter is present. -/
theorem get_proxied_url_fst_char (m : String → String → Bool)
    (u : String → String) (now : Nat) (opts : ProxyOptions) (raw : String)
    (reg : Registry) :
    (get_proxied_url m u now opts (some raw) reg).1
      = match reg.find? (dynMatchValid m now (u raw)) with
        | some e =>
          .ok ⟨u raw, ssl_context_for e.2.ssl_verification e.2.ssl_ciphers⟩
        | none =>
          match opts.url_patterns.find? (fun q => m q (u raw)) with
          | some _ =>
            .ok ⟨u raw, ssl_context_for opts.ssl_verification opts.ssl_ciphers⟩
          | none =>
            if reg.any (dynMatchExpired m now (u raw)) then .error .expired
            else .error .notFound := by
  cases hf : reg.find? (dynMatchValid m now (u raw)) with
  | some e =>
    have h1 : (scan_dynamic m now (u raw) reg).1
        = some (ssl_context_for e.2.ssl_verification e.2.ssl_ciphers) := by
      rw [scan_dynamic_fst, hf]
      rfl
    simp [get_proxied_url, h1]
  | none =>
    have h1 : (scan_dynamic m now (u raw) reg).1 = none := by
      rw [scan_dynamic_fst, hf]
      rfl
    cases hs : opts.url_patterns.find? (fun q => m q (u raw)) with
    | some pat =>
      have h2 : scan_static m (u raw) opts opts.url_patterns
          = some (ssl_context_for opts.ssl_verification opts.ssl_ciphers) := by
        rw [scan_static_eq, hs]
        rfl
      simp [get_proxied_url, h1, h2]
    | none =>
      have h2 : scan_static m (u raw) opts opts.url_patterns = none := by
        rw [scan_static_eq, hs]
        rfl
      have h3 := scan_dynamic_none_flag m now (u raw) reg h1
      cases ha : reg.any (dynMatchExpired m now (u raw)) with
      | false => simp [get_proxied_url, h1, h2, h3, ha]
      | true => simp [get_proxied_url, h1, h2, h3, ha]

/-- The registry returned by _get_proxied_url is the registry after the
dynamic scan, on every path with a present "url" parameter. -/
theorem get_proxied_url_snd (m : String → String → Bool) (u : String → String)
    (now : Nat) (opts : ProxyOptions) (raw : String) (reg : Registry) :
    (get_proxied_url m u now opts (some raw) reg).2
      = (scan_dynamic m now (u raw) reg).2.1 := by
  simp only [get_proxied_url]
  cases h1 : (scan_dynamic m now (u raw) reg).1 with
  | some ctx => rfl
  | none =>
    cases h2 : scan_static m (u raw) opts opts.url_patterns with
    | some ctx => rfl
    | none =>
      cases h3 : (scan_dynamic m now (u raw) reg).2.2 with
      | false => simp [h3]
      | true => simp [h3]

/-- When the first valid match sits behind a prefix with no valid match, the
scan authorizes with its TLS settings and applies exactly the
decrement-and-possibly-remove step to it. -/
theorem scan_dynamic_authorize (m : String → String → Bool) (now : Nat)
    (url : String) (pre post : Registry) (uid : String) (p : DynamicProxiedURL)
    (hpre : ∀ e ∈ pre, dynMatchValid m now url e = false)
    (hm : m p.url_pattern url = true)
    (hx : isExpired now p = false) :
    (scan_dynamic m now url (pre ++ (uid, p) :: post)).1
        = some (ssl_context_for p.ssl_verification p.ssl_ciphers)
      ∧ (scan_dynamic m now url (pre ++ (uid, p) :: post)).2.1
        = pre ++
            (if p.open_limit = 0 then (uid, p) :: post
             else if p.open_limit - 1 = 0 then post
             else (uid, { p with open_limit := p.open_limit - 1 }) :: post) := by
  induction pre with
  | nil =>
    constructor
    · simp [scan_dynamic, hm, hx]
    · by_cases h0 : p.open_limit = 0
      · simp [scan_dynamic, hm, hx, h0]
      · by_cases h1 : p.open_limit - 1 = 0
        · simp [scan_dynamic, hm, hx, h0, h1]
        · simp [scan_dynamic, hm, hx, h0, h1]
  | cons e pre2 ih =>
    obtain ⟨uid2, p2⟩ := e
    have he : dynMatchValid m now url (uid2, p2) = false :=
      hpre (uid2, p2) (List.mem_cons_self _ _)
    have hpre2 : ∀ e ∈ pre2, dynMatchValid m now url e = false := by
      intro e hme
      exact hpre e (List.mem_cons_of_mem _ hme)
    obtain ⟨ih1, ih2⟩ := ih hpre2
    cases hm2 : m p2.url_pattern url with
    | false =>
      constructor
      · simp [scan_dynamic, hm2, ih1]
      · simp [scan_dynamic, hm2, ih2]
    | true =>
      have hx2 : isExpired now p2 = true := by
        simp [dynMatchValid, hm2] at he
        exact he
      constructor
      · simp [scan_dynamic, hm2, hx2, ih1]
      · simp [scan_dynamic, hm2, hx2, ih2]

/-- Every expired entry survives the dynamic scan unchanged. -/
theorem scan_dynamic_keeps_expired (m : String → String → Bool) (now : Nat)
    (url : String) (reg : Registry) (uid : String) (p : DynamicProxiedURL)
    (hin : (uid, p) ∈ reg) (hx : isExpired now p = true) :
    (uid, p) ∈ (scan_dynamic m now url reg).2.1 := by
  induction reg with
  | nil => cases hin
  | cons e rest ih =>
    obtain ⟨uid2, p2⟩ := e
    rcases List.mem_cons.mp hin with heq | hmem
    · injection heq with h1 h2
      subst h1
      subst h2
      cases hm2 : m p.url_pattern url with
      | false => simp [scan_dynamic, hm2]
      | true => simp [scan_dynamic, hm2, hx]
    · cases hm2 : m p2.url_pattern url with
      | false =>
        simp [scan_dynamic, hm2]
        exact Or.inr (ih hmem)
      | true =>
        cases hx2 : isExpired now p2 with
        | true =>
          simp [scan_dynamic, hm2, hx2]
          exact Or.inr (ih hmem)
        | false =>
          by_cases h0 : p2.open_limit = 0
          · simp [scan_dynamic, hm2, hx2, h0]
            exact Or.inr hmem
          · by_cases h1 : p2.open_limit - 1 = 0
            · simp [scan_dynamic, hm2, hx2, h0, h1]
              exact hmem
            · simp [scan_dynamic, hm2, hx2, h0, h1]
              exact Or.inr hmem

/-- Removing a middle element on which the predicate fails does not change
List.find?. -/
theorem find?_skip_middle {α : Type} (P : α → Bool) (l1 l2 : List α) (x : α)
    (hx : P x = false) :
    (l1 ++ x :: l2).find? P = (l1 ++ l2).find? P := by
  induction l1 with
  | nil => simp [List.find?_cons, hx]
  | cons a t ih =>
    cases hP : P a with
    | false => simp [List.find?_cons, hP, ih]
    | true => simp [List.find?_cons, hP]

/-- In the presence of an expired matching dynamic entry, the decision is the
one computed entirely without that entry — first valid match among the other
dynamic entries, else the static fallback, else the Expired denial (which the
expired match itself guarantees). In particular the expired entry itself is
never the authorizer. -/
theorem get_proxied_url_expired_middle (m : String → String → Bool)
    (u : String → String) (now : Nat) (opts : ProxyOptions) (raw : String)
    (pre post : Registry) (uid : String) (p : DynamicProxiedURL)
    (hm : m p.url_pattern (u raw) = true)
    (hx : isExpired now p = true) :
    (get_proxied_url m u now opts (some raw) (pre ++ (uid, p) :: post)).1
      = match (pre ++ post).find? (dynMatchValid m now (u raw)) with
        | some e =>
          .ok ⟨u raw, ssl_context_for e.2.ssl_verification e.2.ssl_ciphers⟩
        | none =>
          match opts.url_patterns.find? (fun q => m q (u raw)) with
          | some _ =>
            .ok ⟨u raw, ssl_context_for opts.ssl_verification opts.ssl_ciphers⟩
          | none => .error .expired := by
  have hval : dynMatchValid m now (u raw) (uid, p) = false := by
    simp [dynMatchValid, hm, hx]
  have hexp : dynMatchExpired m now (u raw) (uid, p) = true := by
    simp [dynMatchExpired, hm, hx]
  have hany : (pre ++ (uid, p) :: post).any (dynMatchExpired m now (u raw))
      = true := by
    simp [List.any_append, List.any_cons, hexp]
  rw [get_proxied_url_fst_char,
    find?_skip_middle (dynMatchValid m now (u raw)) pre post _ hval]
  cases hf : (pre ++ post).find? (dynMatchValid m now (u raw)) with
  | some e => rfl
  | none =>
    cases hs : opts.url_patterns.find? (fun q => m q (u raw)) with
    | some pat => rfl
    | none =>
      rw [hany]
      rfl

/-- Inserting an entry with a nonzero open_limit preserves the absence of
zero-open_limit entries. -/
theorem noZeroOpenLimit_insertEntry (k : String) (v : DynamicProxiedURL)
    (reg : Registry) (h : noZeroOpenLimit reg = true) (hv : v.open_limit ≠ 0) :
    noZeroOpenLimit (insertEntry k v reg) = true := by
  induction reg with
  | nil => simp [insertEntry, noZeroOpenLimit, hv]
  | cons e rest ih =>
    obtain ⟨k2, v2⟩ := e
    simp only [noZeroOpenLimit, List.all_cons, Bool.and_eq_true] at h
    obtain ⟨h1, h2⟩ := h
    cases hk : k2 == k with
    | true =>
      simp only [insertEntry, hk, if_true]
      simp only [noZeroOpenLimit, List.all_cons, Bool.and_eq_true]
      exact ⟨by simp [hv], h2⟩
    | false =>
      simp only [insertEntry, hk, Bool.false_eq_true, if_false]
      simp only [noZeroOpenLimit, List.all_cons, Bool.and_eq_true]
      exact ⟨h1, ih h2⟩

/-- Filtering preserves the absence of zero-open_limit entries. -/
theorem noZeroOpenLimit_filter (reg : Registry)
    (q : String × DynamicProxiedURL → Bool) (h : noZeroOpenLimit reg = true) :
    noZeroOpenLimit (reg.filter q) = true := by
  simp only [noZeroOpenLimit, List.all_eq_true] at h ⊢
  intro e he
  exact h e (List.mem_filter.mp he).1

/-- The dynamic scan preserves the absence of zero-open_limit entries: the only
mutation decrements a positive count and removes the entry when it reaches
zero. -/
theorem noZeroOpenLimit_scan (m : String → String → Bool) (now : Nat)
    (url : String) (reg : Registry) (h : noZeroOpenLimit reg = true) :
    noZeroOpenLimit (scan_dynamic m now url reg).2.1 = true := by
  induction reg with
  | nil => rfl
  | cons e rest ih =>
    obtain ⟨uid, p⟩ := e
    simp only [noZeroOpenLimit, List.all_cons, Bool.and_eq_true] at h
    obtain ⟨hp, hrest⟩ := h
    have ihr := ih hrest
    cases hm : m p.url_pattern url with
    | false =>
      simp only [scan_dynamic, hm, Bool.false_eq_true, if_false]
      simp only [noZeroOpenLimit, List.all_cons, Bool.and_eq_true]
      exact ⟨hp, ihr⟩
    | true =>
      cases hx : isExpired now p with
      | true =>
        simp only [scan_dynamic, hm, hx, if_true]
        simp only [noZeroOpenLimit, List.all_cons, Bool.and_eq_true]
        exact ⟨hp, ihr⟩
      | false =>
        have hb : (p.open_limit != 0) = true := by simp [hp]
        by_cases h1 : p.open_limit - 1 = 0
        · have hs : scan_dynamic m now url ((uid, p) :: rest)
              = (some (ssl_context_for p.ssl_verification p.ssl_ciphers),
                 rest, false) := by
            simp [scan_dynamic, hm, hx, hb, h1]
          rw [hs]
          exact hrest
        · have hs : scan_dynamic m now url ((uid, p) :: rest)
              = (some (ssl_context_for p.ssl_verification p.ssl_ciphers),
                 (uid, { p with open_limit := p.open_limit - 1 }) :: rest,
                 false) := by
            simp [scan_dynamic, hm, hx, hb, h1]
          rw [hs]
          simp only [noZeroOpenLimit, List.all_cons, Bool.and_eq_true]
          exact ⟨by simp [h1], hrest⟩

/-- A full request preserves the absence of zero-open_limit entries. -/
theorem noZeroOpenLimit_get (m : String → String → Bool) (u : String → String)
    (now : Nat) (opts : ProxyOptions) (query : Option String) (reg : Registry)
    (h : noZeroOpenLimit reg = true) :
    noZeroOpenLimit (get_proxied_url m u now opts query reg).2 = true := by
  cases query with
  | none => exact h
  | some raw =>
    rw [get_proxied_url_snd]
    exact noZeroOpenLimit_scan m now (u raw) reg h

/-- Looking up the key just inserted returns the inserted value. -/
theorem insertEntry_lookup (k : String) (v : DynamicProxiedURL) (reg : Registry) :
    (insertEntry k v reg).lookup k = some v := by
  induction reg with
  | nil => simp [insertEntry, List.lookup]
  | cons e rest ih =>
    obtain ⟨k2, v2⟩ := e
    cases hk : k2 == k with
    | true => simp [insertEntry, hk, List.lookup]
    | false =>
      have hk2 : (k == k2) = false := by
        simp at hk
        simp [hk]
        intro hkk
        exact hk hkk.symm
      simp [insertEntry, hk, List.lookup, hk2, ih]

/-- countKey distributes over cons. -/
theorem countKey_cons (k k2 : String) (v2 : DynamicProxiedURL) (rest : Registry) :
    countKey k ((k2, v2) :: rest)
      = (if k2 == k then 1 else 0) + countKey k rest := by
  cases hk : k2 == k with
  | true =>
    simp [countKey, List.filter, hk]
    omega
  | false => simp [countKey, List.filter, hk]

/-- Inserting into a registry holding the key at most once leaves it held
exactly once. -/
theorem countKey_insertEntry (k : String) (v : DynamicProxiedURL)
    (reg : Registry) (h : countKey k reg ≤ 1) :
    countKey k (insertEntry k v reg) = 1 := by
  induction reg with
  | nil => simp [insertEntry, countKey, List.filter]
  | cons e rest ih =>
    obtain ⟨k2, v2⟩ := e
    rw [countKey_cons] at h
    cases hk : k2 == k with
    | true =>
      rw [hk] at h
      simp at h
      have h0 : countKey k rest = 0 := by omega
      simp [insertEntry, hk, countKey_cons, h0]
    | false =>
      rw [hk] at h
      simp at h
      simp [insertEntry, hk, countKey_cons, ih h]

/-- Claim C1: for every authorization request with a decoded target URL, the
first matching non-expired dynamic rule in registry order authorizes (with its
TLS settings, scanning stopping there); static rules are consulted only when
no dynamic rule authorizes; and when nothing authorizes the denial is Expired
exactly when some expired dynamic rule matched during the scan, NotFound
otherwise. -/
theorem C1_authorization_decision (m : String → String → Bool)
    (u : String → String) (now : Nat) (opts : ProxyOptions) (raw : String)
    (reg : Registry) :
    (∀ e, reg.find? (dynMatchValid m now (u raw)) = some e →
        (get_proxied_url m u now opts (some raw) reg).1
          = .ok ⟨u raw, ssl_context_for e.2.ssl_verification e.2.ssl_ciphers⟩)
    ∧ (reg.find? (dynMatchValid m now (u raw)) = none →
        ∀ pat, opts.url_patterns.find? (fun q => m q (u raw)) = some pat →
          (get_proxied_url m u now opts (some raw) reg).1
            = .ok ⟨u raw, ssl_context_for opts.ssl_verification opts.ssl_ciphers⟩)
    ∧ (reg.find? (dynMatchValid m now (u raw)) = none →
        opts.url_patterns.find? (fun q => m q (u raw)) = none →
        (get_proxied_url m u now opts (some raw) reg).1
          = .error (if reg.any (dynMatchExpired m now (u raw)) then .expired
                    else .notFound)) := by
  refine ⟨?_, ?_, ?_⟩
  · intro e hf
    rw [get_proxied_url_fst_char, hf]
  · intro hf pat hs
    rw [get_proxied_url_fst_char, hf, hs]
  · intro hf hs
    rw [get_proxied_url_fst_char, hf, hs]
    cases reg.any (dynMatchExpired m now (u raw)) with
    | false => rfl
    | true => rfl

/-- Witness for C1: a registry whose only rule matches and has not expired
authorizes with that rule's TLS settings. -/
theorem C1_authorization_decision_witness :
    (get_proxied_url (fun pat s => pat == s) id 5 ⟨[], .default, true⟩
        (some "u") [("a", ⟨"u", true, .modern, 1, 0⟩)]).1
      = .ok ⟨"u", ssl_context_for true .modern⟩ :=
  (C1_authorization_decision (fun pat s => pat == s) id 5 ⟨[], .default, true⟩
    "u" [("a", ⟨"u", true, .modern, 1, 0⟩)]).1
    ("a", ⟨"u", true, .modern, 1, 0⟩) (by decide)

/-- Claim C7: when no dynamic rule authorizes and some static pattern matches,
the first matching static rule authorizes immediately with the configured
static TLS settings, and the registry is untouched (no expiration or use-limit
bookkeeping applies to static rules). -/
theorem C7_static_fallback (m : String → String → Bool) (u : String → String)
    (now : Nat) (opts : ProxyOptions) (raw : String) (reg : Registry)
    (pat : String)
    (hdyn : reg.find? (dynMatchValid m now (u raw)) = none)
    (hstat : opts.url_patterns.find? (fun q => m q (u raw)) = some pat) :
    get_proxied_url m u now opts (some raw) reg
      = (.ok ⟨u raw, ssl_context_for opts.ssl_verification opts.ssl_ciphers⟩,
         reg) := by
  have h1 : (scan_dynamic m now (u raw) reg).1 = none := by
    rw [scan_dynamic_fst, hdyn]
    rfl
  have hfst : (get_proxied_url m u now opts (some raw) reg).1
      = .ok ⟨u raw, ssl_context_for opts.ssl_verification opts.ssl_ciphers⟩ := by
    rw [get_proxied_url_fst_char, hdyn, hstat]
  have hsnd : (get_proxied_url m u now opts (some raw) reg).2 = reg := by
    rw [get_proxied_url_snd]
    exact scan_dynamic_none_reg m now (u raw) reg h1
  calc get_proxied_url m u now opts (some raw) reg
      = ((get_proxied_url m u now opts (some raw) reg).1,
         (get_proxied_url m u now opts (some raw) reg).2) := rfl
    _ = (.ok ⟨u raw, ssl_context_for opts.ssl_verification opts.ssl_ciphers⟩,
         reg) := by rw [hfst, hsnd]

/-- Witness for C7: an empty dynamic registry plus one matching static pattern
authorizes with the static TLS settings. -/
theorem C7_static_fallback_witness :
    get_proxied_url (fun pat s => pat == s) id 0 ⟨["u"], .intermediate, false⟩
        (some "u") []
      = (.ok ⟨"u", ssl_context_for false .intermediate⟩, []) :=
  C7_static_fallback (fun pat s => pat == s) id 0 ⟨["u"], .intermediate, false⟩
    "u" [] "u" rfl (by decide)

/-- Claim C8: every denial (NotFound or Expired) leaves the dynamic registry
exactly as it was, including the path where an expired match was observed. -/
theorem C8_denial_preserves_registry (m : String → String → Bool)
    (u : String → String) (now : Nat) (opts : ProxyOptions)
    (query : Option String) (reg : Registry) (err : HASSProxyLibError)
    (h : (get_proxied_url m u now opts query reg).1 = .error err) :
    (get_proxied_url m u now opts query reg).2 = reg := by
  cases query with
  | none => rfl
  | some raw =>
    rw [get_proxied_url_snd]
    apply scan_dynamic_none_reg
    cases hs : (scan_dynamic m now (u raw) reg).1 with
    | none => rfl
    | some ctx =>
      exfalso
      have hok : (get_proxied_url m u now opts (some raw) reg).1
          = .ok ⟨u raw, ctx⟩ := by
        simp [get_proxied_url, hs]
      rw [hok] at h
      cases h

/-- Witness for C8: a NotFound denial on an empty registry leaves it empty. -/
theorem C8_denial_preserves_registry_witness :
    (get_proxied_url (fun pat s => pat == s) id 0 ⟨[], .default, true⟩
        (some "u") []).2 = [] :=
  C8_denial_preserves_registry (fun pat s => pat == s) id 0 ⟨[], .default, true⟩
    (some "u") [] .notFound rfl

/-- Claim C9: a request without any "url" query parameter is denied with
NotFound without consulting dynamic or static rules (the outcome is the same
for every registry and option set, and the registry is untouched). -/
theorem C9_missing_url_param (m : String → String → Bool) (u : String → String)
    (now : Nat) (opts : ProxyOptions) (reg : Registry) :
    get_proxied_url m u now opts none reg = (.error .notFound, reg) :=
  rfl

/-- Claim C10: the TLS policy resolver maps the default cipher profile to the
runtime default policy and passes the other profiles through verbatim;
verify = true builds a verifying context with the resolved profile and
verify = false a non-verifying one. -/
theorem C10_tls_policy_resolver :
    proxy_ssl_cipher_to_ha_ssl_cipher .default = .python_default
    ∧ proxy_ssl_cipher_to_ha_ssl_cipher .insecure = .insecure
    ∧ proxy_ssl_cipher_to_ha_ssl_cipher .modern = .modern
    ∧ proxy_ssl_cipher_to_ha_ssl_cipher .intermediate = .intermediate
    ∧ (∀ c, get_ssl_context c
        = client_context (proxy_ssl_cipher_to_ha_ssl_cipher c))
    ∧ (∀ c, get_ssl_context_no_verify c
        = client_context_no_verify (proxy_ssl_cipher_to_ha_ssl_cipher c))
    ∧ (∀ cl : SSLCipherList,
        (client_context cl).verify = true
        ∧ (client_context cl).ciphers = cl
        ∧ (client_context_no_verify cl).verify = false
        ∧ (client_context_no_verify cl).ciphers = cl) :=
  ⟨rfl, rfl, rfl, rfl, fun _ => rfl, fun _ => rfl,
   fun _ => ⟨rfl, rfl, rfl, rfl⟩⟩

/-- Claim C3: when a non-expired dynamic rule is the one that authorizes (no
earlier entry both matches and is valid), a positive open_limit is decremented
by exactly one and the entry is removed exactly when the decremented value is
zero, while open_limit = 0 (unlimited) leaves the entry untouched so that it
stays in the registry through arbitrarily many successful matches. -/
theorem C3_authorizing_match_decrements (m : String → String → Bool)
    (u : String → String) (now : Nat) (opts : ProxyOptions) (raw : String)
    (pre post : Registry) (uid : String) (p : DynamicProxiedURL)
    (hpre : ∀ e ∈ pre, dynMatchValid m now (u raw) e = false)
    (hm : m p.url_pattern (u raw) = true)
    (hx : isExpired now p = false) :
    (get_proxied_url m u now opts (some raw) (pre ++ (uid, p) :: post)).1
        = .ok ⟨u raw, ssl_context_for p.ssl_verification p.ssl_ciphers⟩
      ∧ (get_proxied_url m u now opts (some raw) (pre ++ (uid, p) :: post)).2
        = pre ++
            (if p.open_limit = 0 then (uid, p) :: post
             else if p.open_limit - 1 = 0 then post
             else (uid, { p with open_limit := p.open_limit - 1 }) :: post) := by
  obtain ⟨h1, h2⟩ := scan_dynamic_authorize m now (u raw) pre post uid p hpre hm hx
  constructor
  · simp [get_proxied_url, h1]
  · rw [get_proxied_url_snd, h2]

/-- Witness for C3: a rule with open_limit = 2 authorizes and is decremented
to 1 in place. -/
theorem C3_authorizing_match_decrements_witness :
    (get_proxied_url (fun pat s => pat == s) id 5 ⟨[], .default, true⟩
        (some "u") [("a", ⟨"u", true, .modern, 2, 0⟩)]).1
      = .ok ⟨"u", ssl_context_for true .modern⟩
    ∧ (get_proxied_url (fun pat s => pat == s) id 5 ⟨[], .default, true⟩
        (some "u") [("a", ⟨"u", true, .modern, 2, 0⟩)]).2
      = [("a", ⟨"u", true, .modern, 1, 0⟩)] := by
  have h := C3_authorizing_match_decrements (fun pat s => pat == s) id 5
    ⟨[], .default, true⟩ "u" [] [] "a" ⟨"u", true, .modern, 2, 0⟩
    (by intro e he; cases he) (by decide) (by decide)
  simp only [List.nil_append] at h
  refine ⟨h.1, ?_⟩
  rw [h.2]
  decide

/-- Claim C4: an expired matching dynamic rule never authorizes: the decision
equals the one computed entirely without that entry (first valid match among
the other dynamic rules, else the static fallback, else the Expired denial),
an expression independent of the rule and in particular of its remaining
open_limit — so replacing the open_limit by any value leaves the decision
unchanged — and the match neither decrements the open_limit nor removes the
entry, which survives the request unchanged. -/
theorem C4_expired_rule_never_authorizes (m : String → String → Bool)
    (u : String → String) (now : Nat) (opts : ProxyOptions) (raw : String)
    (pre post : Registry) (uid : String) (p : DynamicProxiedURL)
    (hm : m p.url_pattern (u raw) = true)
    (hx : isExpired now p = true) :
    ((get_proxied_url m u now opts (some raw) (pre ++ (uid, p) :: post)).1
      = match (pre ++ post).find? (dynMatchValid m now (u raw)) with
        | some e =>
          .ok ⟨u raw, ssl_context_for e.2.ssl_verification e.2.ssl_ciphers⟩
        | none =>
          match opts.url_patterns.find? (fun q => m q (u raw)) with
          | some _ =>
            .ok ⟨u raw, ssl_context_for opts.ssl_verification opts.ssl_ciphers⟩
          | none => .error .expired)
    ∧ (∀ k, (get_proxied_url m u now opts (some raw)
          (pre ++ (uid, { p with open_limit := k }) :: post)).1
        = (get_proxied_url m u now opts (some raw)
            (pre ++ (uid, p) :: post)).1)
    ∧ (uid, p) ∈
        (get_proxied_url m u now opts (some raw) (pre ++ (uid, p) :: post)).2 := by
  have h1 := get_proxied_url_expired_middle m u now opts raw pre post uid p hm hx
  refine ⟨h1, fun k => ?_, ?_⟩
  · have h2 := get_proxied_url_expired_middle m u now opts raw pre post uid
      { p with open_limit := k } hm hx
    rw [h2, h1]
  · rw [get_proxied_url_snd]
    apply scan_dynamic_keeps_expired m now (u raw) _ uid p _ hx
    exact List.mem_append_right pre (List.mem_cons_self _ _)

/-- Witness for C4: an expired matching rule with positive open_limit is
denied with Expired (it does not authorize), the denial is the same with
open_limit 7, and the entry stays in the registry unchanged. -/
theorem C4_expired_rule_never_authorizes_witness :
    ((get_proxied_url (fun pat s => pat == s) id 10 ⟨[], .default, true⟩
        (some "u") [("a", ⟨"u", true, .modern, 3, 5⟩)]).1 = .error .expired)
    ∧ ((get_proxied_url (fun pat s => pat == s) id 10 ⟨[], .default, true⟩
          (some "u") [("a", ⟨"u", true, .modern, 7, 5⟩)]).1
        = (get_proxied_url (fun pat s => pat == s) id 10 ⟨[], .default, true⟩
            (some "u") [("a", ⟨"u", true, .modern, 3, 5⟩)]).1)
    ∧ ("a", (⟨"u", true, .modern, 3, 5⟩ : DynamicProxiedURL)) ∈
        (get_proxied_url (fun pat s => pat == s) id 10 ⟨[], .default, true⟩
          (some "u") [("a", ⟨"u", true, .modern, 3, 5⟩)]).2 := by
  have h := C4_expired_rule_never_authorizes (fun pat s => pat == s) id 10
    ⟨[], .default, true⟩ "u" [] [] "a" ⟨"u", true, .modern, 3, 5⟩
    (by decide) (by decide)
  exact ⟨h.1, h.2.1 7, h.2.2⟩

/-- Claim C5: create stores an entry whose expiration is now + ttl for
positive ttl and 0 (never expires) for ttl = 0, under the generated id when no
id is supplied, and overwrites the prior entry (last-writer-wins) when an
explicit duplicate id is supplied, leaving exactly one entry under that key. -/
theorem C5_create_semantics (genId : String) (now : Nat) (pat : String)
    (v : Bool) (c : HASSProxySSLCiphers) (lim ttl : Nat) (reg : Registry)
    (hU : ∀ s, countKey s reg ≤ 1) :
    ((create_proxied_url genId now none pat v c lim ttl reg).lookup genId
        = some ⟨pat, v, c, lim, if ttl != 0 then now + ttl else 0⟩)
    ∧ (∀ s, s ≠ "" →
        (create_proxied_url genId now (some s) pat v c lim ttl reg).lookup s
            = some ⟨pat, v, c, lim, if ttl != 0 then now + ttl else 0⟩
          ∧ countKey s (create_proxied_url genId now (some s) pat v c lim ttl reg)
            = 1)
    ∧ ((if ttl != 0 then now + ttl else 0)
        = if 0 < ttl then now + ttl else 0) := by
  refine ⟨?_, ?_, ?_⟩
  · exact insertEntry_lookup genId _ reg
  · intro s hs
    have hs2 : (s == "") = false := by
      simp [hs]
    constructor
    · simp only [create_proxied_url, hs2, Bool.false_eq_true, if_false]
      exact insertEntry_lookup s _ reg
    · simp only [create_proxied_url, hs2, Bool.false_eq_true, if_false]
      exact countKey_insertEntry s _ reg (hU s)
  · by_cases h0 : ttl = 0
    · simp [h0]
    · simp [h0, Nat.pos_of_ne_zero h0]

/-- Witness for C5: creating with no explicit id on an empty registry stores
the entry under the generated id with expiration now + ttl. -/
theorem C5_create_semantics_witness :
    (create_proxied_url "gen" 100 none "p" true .modern 1 60 []).lookup "gen"
      = some ⟨"p", true, .modern, 1, 160⟩ := by
  have h := C5_create_semantics "gen" 100 "p" true .modern 1 60 []
    (by intro s; simp [countKey])
  rw [h.1]
  decide

/-- Claim C6: delete fails with the url_id_not_found validation error exactly
when the id is absent, leaving the registry unchanged in that case; when the
id is present the call succeeds, exactly the entries under that id are removed
and every other entry is kept, so later requests fall through to the remaining
rules. -/
theorem C6_delete_semantics (url_id : String) (reg : Registry) :
    ((delete_proxied_url url_id reg).1
        = .error (.url_id_not_found url_id) ↔ reg.lookup url_id = none)
    ∧ (reg.lookup url_id = none → (delete_proxied_url url_id reg).2 = reg)
    ∧ ((reg.lookup url_id).isSome →
        (delete_proxied_url url_id reg).1 = .ok ()
        ∧ (delete_proxied_url url_id reg).2
            = reg.filter (fun e => e.1 != url_id)
        ∧ (∀ e ∈ (delete_proxied_url url_id reg).2, e.1 ≠ url_id)
        ∧ (∀ e ∈ reg, e.1 ≠ url_id → e ∈ (delete_proxied_url url_id reg).2)) := by
  cases hl : reg.lookup url_id with
  | none =>
    refine ⟨⟨fun _ => rfl, fun _ => ?_⟩, fun _ => ?_, fun hs => ?_⟩
    · simp [delete_proxied_url, hl]
    · simp [delete_proxied_url, hl]
    · simp at hs
  | some p =>
    have hd1 : (delete_proxied_url url_id reg).1 = .ok () := by
      simp [delete_proxied_url, hl]
    have hd2 : (delete_proxied_url url_id reg).2
        = reg.filter (fun e => e.1 != url_id) := by
      simp [delete_proxied_url, hl]
    refine ⟨⟨fun he => ?_, fun hn => ?_⟩, fun hn => ?_, fun _ => ⟨hd1, hd2, ?_, ?_⟩⟩
    · rw [hd1] at he
      cases he
    · cases hn
    · cases hn
    · intro e he
      rw [hd2] at he
      have := (List.mem_filter.mp he).2
      simpa using this
    · intro e he hne
      rw [hd2]
      refine List.mem_filter.mpr ⟨he, ?_⟩
      simpa using hne

/-- Witness for C6: deleting the only entry succeeds and empties the
registry. -/
theorem C6_delete_semantics_witness :
    (delete_proxied_url "a" [("a", ⟨"p", true, .modern, 1, 0⟩)]).1 = .ok ()
    ∧ (delete_proxied_url "a" [("a", ⟨"p", true, .modern, 1, 0⟩)]).2
        = List.filter (fun e => e.1 != "a") [("a", ⟨"p", true, .modern, 1, 0⟩)] := by
  have h := C6_delete_semantics "a" [("a", ⟨"p", true, .modern, 1, 0⟩)]
  have h3 := h.2.2 (by decide)
  exact ⟨h3.1, h3.2.1⟩

/-- Counterexample to claim C2 as stated: a single create operation with
open_limit = 0 (the documented "unlimited uses" encoding) reaches a registry
that persists an entry with open_limit = 0, so it is not true that every
state reachable by create, delete and authorize operations is free of
zero-open_limit entries. -/
theorem C2_zero_open_limit_counterexample :
    ¬ (∀ reg : Registry, Reachable reg → noZeroOpenLimit reg = true) := by
  intro h
  have h0 : Reachable (create_proxied_url "gen" 0 none "p" true .default 0 0 []) :=
    Reachable.create Reachable.init
  have h1 := h _ h0
  exact absurd h1 (by decide)

/-- Claim C2 (amended): in every registry state reachable by create, delete
and authorize operations in which every create supplies a positive openLimit,
no entry with openLimit = 0 is ever persisted — openLimit is only ever
decremented, and the decrement that reaches exactly zero removes the entry in
the same step. (A create with openLimit = 0 deliberately persists an
unlimited-use entry whose stored openLimit is 0, which refutes the original
unrestricted claim.) -/
theorem C2_no_zero_open_limit_of_positive_creates (reg : Registry)
    (h : ReachablePos reg) : noZeroOpenLimit reg = true := by
  induction h with
  | init => rfl
  | create hlim hr ih =>
    exact noZeroOpenLimit_insertEntry _ _ _ ih hlim
  | delete hr ih =>
    rename_i url_id reg2
    unfold delete_proxied_url
    by_cases hn : (reg2.lookup url_id).isNone
    · simp only [hn, if_true]
      exact ih
    · simp only [hn, Bool.false_eq_true, if_false]
      exact noZeroOpenLimit_filter reg2 _ ih
  | authorize hr ih =>
    exact noZeroOpenLimit_get _ _ _ _ _ _ ih

/-- Witness for the amended C2: a single positive-limit create yields a state
with no zero-open_limit entry. -/
theorem C2_no_zero_open_limit_of_positive_creates_witness :
    noZeroOpenLimit (create_proxied_url "gen" 0 none "p" true .default 1 0 [])
      = true :=
  C2_no_zero_open_limit_of_positive_creates _
    (ReachablePos.create (by decide) ReachablePos.init)
